import Mathlib

/-!
# Contact form controller of `script.js`

A shallow embedding of the form validation, the submit workflow and the
display-name store of `src/script.js`, followed by the properties proved
about them.

JavaScript strings are sequences of UTF-16 code units; they are modelled as
lists of natural numbers, so that `.length`, `.trim()` and the regular
expressions (which, without the `u` flag, work on code units) keep their
exact meaning.
-/

namespace ContactForm

/-! ## Strings -/

/-- A JavaScript string: its UTF-16 code units. -/
abbrev JSString := List Nat

/-- UTF-16 encoding of one Unicode scalar value. -/
def utf16 (c : Char) : List Nat :=
  if c.toNat < 65536 then [c.toNat]
  else [55296 + (c.toNat - 65536) / 1024, 56320 + (c.toNat - 65536) % 1024]

/-- The JavaScript string written by a source literal. -/
def js (s : String) : JSString := s.toList.flatMap utf16

/-- ECMAScript WhiteSpace and LineTerminator code units: what `trim()`
strips and what `\s` matches. -/
def isWhiteSpace (c : Nat) : Bool :=
  c == 9 || c == 10 || c == 11 || c == 12 || c == 13 || c == 32 || c == 160 ||
  c == 5760 || (8192 ≤ c && c ≤ 8202) || c == 8232 || c == 8233 || c == 8239 ||
  c == 8287 || c == 12288 || c == 65279

/-- The method `String.prototype.trim`. -/
def trim (s : JSString) : JSString :=
  (s.dropWhile isWhiteSpace).rdropWhile isWhiteSpace

/-! ## Regular expressions -/

/-- One member of a bracketed character class. -/
inductive ClassItem where
  | single (c : Nat)
  | range (lo hi : Nat)
  | space
  | digit
  deriving DecidableEq, Repr

/-- Does the class member accept the code unit. -/
def ClassItem.has : ClassItem → Nat → Bool
  | .single c, x => x == c
  | .range lo hi, x => lo ≤ x && x ≤ hi
  | .space, x => isWhiteSpace x
  | .digit, x => 48 ≤ x && x ≤ 57

/-- A character class `[...]` or `[^...]`. -/
structure CharClass where
  negated : Bool
  items : List ClassItem
  deriving DecidableEq, Repr

/-- Does the class accept the code unit. -/
def CharClass.has (k : CharClass) (x : Nat) : Bool :=
  if k.negated then !(k.items.any fun i => i.has x) else k.items.any fun i => i.has x

/-- Pattern syntax. `quant r lo hi` is `r{lo,hi}`, with `hi = none` for an
open upper bound (`+` is `{1,}`, `?` is `{0,1}`). `fail` and `alt` only arise
as derivatives. -/
inductive Regex where
  | fail
  | cls (k : CharClass)
  | seq (a b : Regex)
  | alt (a b : Regex)
  | quant (r : Regex) (lo : Nat) (hi : Option Nat)
  deriving Repr

/-- Is the upper bound `hi` at least `n`. -/
def withinBound (n : Nat) : Option Nat → Bool
  | none => true
  | some h => n ≤ h

/-- Does the pattern accept the empty string. -/
def Regex.nullable : Regex → Bool
  | .fail => false
  | .cls _ => false
  | .seq a b => a.nullable && b.nullable
  | .alt a b => a.nullable || b.nullable
  | .quant r lo hi => lo == 0 || (r.nullable && withinBound lo hi)

/-- Derivative of a pattern by one code unit. -/
def Regex.deriv (c : Nat) : Regex → Regex
  | .fail => .fail
  | .cls k => if k.has c then .quant .fail 0 none else .fail
  | .seq a b => if a.nullable then .alt (.seq (a.deriv c) b) (b.deriv c) else .seq (a.deriv c) b
  | .alt a b => .alt (a.deriv c) (b.deriv c)
  | .quant r lo hi =>
    if withinBound 1 hi then .seq (r.deriv c) (.quant r (lo - 1) (hi.map fun h => h - 1))
    else .fail

/-- The method `RegExp.prototype.test` for a pattern written `/^r$/` without
flags: the whole string has to be matched by `r`. -/
def Regex.test : Regex → JSString → Bool
  | r, [] => r.nullable
  | r, c :: s => (r.deriv c).test s

/-- The pattern `/^[a-zA-Z\s]+$/` of the name check. -/
def nameRegex : Regex :=
  .quant (.cls ⟨false, [.range 97 122, .range 65 90, .space]⟩) 1 none

/-- The class `[^\s@]`. -/
def notSpaceAt : CharClass := ⟨true, [.space, .single 64]⟩

/-- The pattern `/^[^\s@]+@[^\s@]+\.[^\s@]+$/` (`emailRegex`). -/
def emailRegex : Regex :=
  .seq (.quant (.cls notSpaceAt) 1 none)
    (.seq (.cls ⟨false, [.single 64]⟩)
      (.seq (.quant (.cls notSpaceAt) 1 none)
        (.seq (.cls ⟨false, [.single 46]⟩)
          (.quant (.cls notSpaceAt) 1 none))))

/-- The pattern `/^[\+]?[1-9][\d]{0,15}$/` (`phoneRegex`). -/
def phoneRegex : Regex :=
  .seq (.quant (.cls ⟨false, [.single 43]⟩) 0 (some 1))
    (.seq (.cls ⟨false, [.range 49 57]⟩)
      (.quant (.cls ⟨false, [.digit]⟩) 0 (some 15)))

/-- The class `[\s\-\(\)]`. -/
def phoneSeparators : CharClass := ⟨false, [.space, .single 45, .single 40, .single 41]⟩

/-- The call `s.replace(/[k]/g, '')` for a one-class global pattern: every code
unit of the class is deleted. -/
def removeAll (k : CharClass) (s : JSString) : JSString :=
  s.filter fun c => !k.has c

/-! ## The page -/

/-- The four form fields, `['name', 'email', 'phone', 'message']`. -/
inductive FieldId where
  | name
  | email
  | phone
  | message
  deriving DecidableEq, Repr

/-- An `<input>` or `<textarea>` found by `document.getElementById(fieldName)`.
`defaultValue` is what `form.reset()` restores; `inForm` says that the control
belongs to `#contact-form`. Both come from the page markup. -/
structure Control where
  value : JSString
  defaultValue : JSString
  errorClass : Bool
  inForm : Bool
  deriving DecidableEq, Repr

/-- The element with id `${fieldName}-error`. `inForm` says that it is a
descendant of `#contact-form` carrying the class `error-message`. -/
structure ErrorSlot where
  textContent : JSString
  inForm : Bool
  deriving DecidableEq, Repr

/-- The two elements of one field; `none` is a lookup that returns `null`. -/
structure FieldNodes where
  control : Option Control
  errorElement : Option ErrorSlot
  deriving DecidableEq, Repr

/-- The `.submit-btn` element. -/
structure Button where
  innerHTML : JSString
  disabled : Bool
  deriving DecidableEq, Repr

/-- The object built by `getFormData`. -/
structure FormData where
  name : JSString
  email : JSString
  phone : JSString
  message : JSString
  timestamp : JSString
  deriving DecidableEq, Repr

/-- Content of `#result-content`: whatever the markup held, or the template of
`displayFormResults` filled with the five properties of a record (the fixed
markup around the five holes is left out). -/
inductive ResultMarkup where
  | initial
  | details (name email phone timestamp message : JSString)
  deriving DecidableEq, Repr

/-- The `type` argument of `showNotification`. -/
inductive NotificationType where
  | success
  | error
  | info
  deriving DecidableEq, Repr

/-- A notification element attached to `document.body`; `leaving` is set once
its exit animation has been started. -/
structure Notification where
  message : JSString
  type : NotificationType
  leaving : Bool
  deriving DecidableEq, Repr

/-- The callbacks handed to `setTimeout`. A notification element is named by
the number it received on creation. -/
inductive Callback where
  | completeSubmission (formData : FormData)
  | startExit (id : Nat)
  | remove (id : Nat)
  deriving DecidableEq, Repr

/-- A pending `setTimeout(callback, delay)`. -/
structure Timer where
  delay : Nat
  callback : Callback
  deriving DecidableEq, Repr

/-- Everything the script reads or writes. -/
structure Page where
  name : FieldNodes
  email : FieldNodes
  phone : FieldNodes
  message : FieldNodes
  contactForm : Bool
  submitBtn : Option Button
  modalDisplay : Option JSString
  resultContent : Option ResultMarkup
  welcomeText : Option JSString
  notifications : List (Nat × Notification)
  nextId : Nat
  timers : List Timer
  userName : JSString
  storedUserName : Option JSString
  deriving DecidableEq, Repr

/-- The elements of one field. -/
def Page.nodes (p : Page) : FieldId → FieldNodes
  | .name => p.name
  | .email => p.email
  | .phone => p.phone
  | .message => p.message

/-- Replace the elements of one field. -/
def Page.setNodes (p : Page) (f : FieldId) (n : FieldNodes) : Page :=
  match f with
  | .name => { p with name := n }
  | .email => { p with email := n }
  | .phone => { p with phone := n }
  | .message => { p with message := n }

/-! ## Validation -/

/-- Function `getFieldLabel` (lines 207-215). -/
def getFieldLabel : FieldId → JSString
  | .name => js "Name"
  | .email => js "Email"
  | .phone => js "Phone Number"
  | .message => js "Message"

/-- Lines 147-195 of `validateField`: from the raw field value to
`(isValid, errorMessage)`. -/
def fieldVerdict (fieldName : FieldId) (raw : JSString) : Bool × JSString :=
  let value := trim raw
  if value = [] then
    (false, getFieldLabel fieldName ++ js " is required")
  else
    match fieldName with
    | .name =>
      if value.length < 2 then (false, js "Name must be at least 2 characters long")
      else if !nameRegex.test value then (false, js "Name can only contain letters and spaces")
      else (true, [])
    | .email =>
      if !emailRegex.test value then (false, js "Please enter a valid email address")
      else (true, [])
    | .phone =>
      if !phoneRegex.test (removeAll phoneSeparators value) then
        (false, js "Please enter a valid phone number")
      else (true, [])
    | .message =>
      if value.length < 10 then (false, js "Message must be at least 10 characters long")
      else if value.length > 1000 then (false, js "Message must be less than 1000 characters")
      else (true, [])

/-- Lines 197-201 of `validateField` ("Display error"): when the error element
exists, its text is set and the class `error` of the control is toggled. -/
def displayError (fieldName : FieldId) (isValid : Bool) (errorMessage : JSString)
    (p : Page) : Page :=
  match (p.nodes fieldName).control, (p.nodes fieldName).errorElement with
  | some field, some errorElement =>
    p.setNodes fieldName
      { control := some { field with errorClass := !isValid }
        errorElement := some { errorElement with textContent := errorMessage } }
  | _, _ => p

/-- Function `validateField` (lines 144-204): returns `isValid` and the page
with the error displayed. `none` is the `TypeError` raised by `field.value`
when the control is missing. -/
def validateField (fieldName : FieldId) (p : Page) : Option (Bool × Page) :=
  match (p.nodes fieldName).control with
  | none => none
  | some field =>
    let verdict := fieldVerdict fieldName field.value
    some (verdict.1, displayError fieldName verdict.1 verdict.2 p)

/-- Function `validateAllFields` (lines 130-141): the `forEach` over the four
names, threading the `isValid` flag and the page. -/
def validateAllFields (p : Page) : Option (Bool × Page) :=
  [FieldId.name, FieldId.email, FieldId.phone, FieldId.message].foldlM
    (fun (acc : Bool × Page) field =>
      match validateField field acc.2 with
      | none => none
      | some (ok, q) => some (if !ok then false else acc.1, q))
    (true, p)

/-- Function `getFormData` (lines 119-127), with `now` the text of
`new Date().toLocaleString()`. -/
def getFormData (now : JSString) (p : Page) : Option FormData :=
  match p.name.control, p.email.control, p.phone.control, p.message.control with
  | some n, some e, some ph, some m =>
    some { name := trim n.value, email := trim e.value, phone := trim ph.value,
           message := trim m.value, timestamp := now }
  | _, _, _, _ => none

/-! ## Submission -/

/-- Function `showLoadingState` (lines 229-235). -/
def showLoadingState (p : Page) : Page :=
  match p.submitBtn with
  | some _ =>
    { p with submitBtn := some { innerHTML := js "<span class=\"loading\"></span> Sending...",
                                 disabled := true } }
  | none => p

/-- Function `hideLoadingState` (lines 238-244). -/
def hideLoadingState (p : Page) : Page :=
  match p.submitBtn with
  | some _ => { p with submitBtn := some { innerHTML := js "Send Message", disabled := false } }
  | none => p

/-- Function `displayFormResults` (lines 247-272). -/
def displayFormResults (formData : FormData) (p : Page) : Page :=
  match p.modalDisplay, p.resultContent with
  | some _, some _ =>
    { p with
      resultContent := some (.details formData.name formData.email formData.phone
        formData.timestamp formData.message)
      modalDisplay := some (js "block") }
  | _, _ => p

/-- What `resetForm` does to the elements of one field. -/
def resetNodes (n : FieldNodes) : FieldNodes :=
  { control := n.control.map fun c =>
      if c.inForm then { c with value := c.defaultValue, errorClass := false } else c
    errorElement := n.errorElement.map fun e =>
      if e.inForm then { e with textContent := [] } else e }

/-- Function `resetForm` (lines 283-300). -/
def resetForm (p : Page) : Page :=
  if p.contactForm then
    { p with name := resetNodes p.name, email := resetNodes p.email,
             phone := resetNodes p.phone, message := resetNodes p.message }
  else p

/-- Function `showNotification` (lines 342-376): the element is appended to
the body and its removal is scheduled. -/
def showNotification (message : JSString) (type : NotificationType) (p : Page) : Page :=
  { p with
    notifications := p.notifications ++ [(p.nextId, ⟨message, type, false⟩)]
    nextId := p.nextId + 1
    timers := p.timers ++ [⟨4000, .startExit p.nextId⟩] }

/-- Function `handleFormSubmission` (lines 93-116), with `now` the clock text
read by `getFormData`. `none` is an uncaught `TypeError`. -/
def handleFormSubmission (now : JSString) (p : Page) : Option Page :=
  match validateAllFields p with
  | none => none
  | some (isValid, p1) =>
    if isValid then
      match getFormData now p1 with
      | none => none
      | some formData =>
        let p2 := showLoadingState p1
        some { p2 with timers := p2.timers ++ [⟨2000, .completeSubmission formData⟩] }
    else
      some (showNotification (js "Please correct the errors in the form.") .error p1)

/-- Body of a timer callback, run on the page as it is when the timer fires. -/
def runCallback (t : Callback) (p : Page) : Page :=
  match t with
  | .completeSubmission formData =>
    showNotification (js "Message sent successfully!") .success
      (resetForm (displayFormResults formData (hideLoadingState p)))
  | .startExit id =>
    { p with
      notifications := p.notifications.map fun n =>
        if n.1 = id then (n.1, { n.2 with leaving := true }) else n
      timers := p.timers ++ [⟨300, .remove id⟩] }
  | .remove id => { p with notifications := p.notifications.filter fun n => n.1 ≠ id }

/-! ## Display name -/

/-- Initial value of the global `userName`:
`localStorage.getItem('userName') || 'Guest'`. -/
def initialUserName (stored : Option JSString) : JSString :=
  match stored with
  | some s => if s = [] then js "Guest" else s
  | none => js "Guest"

/-- Function `updateWelcomeMessage` (lines 50-55). -/
def updateWelcomeMessage (p : Page) : Page :=
  match p.welcomeText with
  | some _ =>
    { p with welcomeText := some (js "Hi " ++ p.userName ++ js "! Welcome to TechVision Solutions") }
  | none => p

/-- Function `promptName` (lines 58-68), with `answer` the result of
`prompt(...)` (`none` when the dialog is cancelled). -/
def promptName (answer : Option JSString) (p : Page) : Page :=
  match answer with
  | none => p
  | some name =>
    if name ≠ [] ∧ trim name ≠ [] then
      let p1 := { p with userName := trim name }
      let p2 := { p1 with storedUserName := some p1.userName }
      let p3 := updateWelcomeMessage p2
      showNotification (js "Welcome " ++ p3.userName ++ js "! Thanks for visiting us.") .success p3
    else p

/-! ## Meaning of patterns -/

/-- The set of strings a pattern stands for. -/
def Regex.Lang : Regex → List Nat → Prop
  | .fail, _ => False
  | .cls k, s => ∃ c, s = [c] ∧ k.has c = true
  | .seq a b, s => ∃ u v, s = u ++ v ∧ a.Lang u ∧ b.Lang v
  | .alt a b, s => a.Lang s ∨ b.Lang s
  | .quant r lo hi, s =>
    ∃ ws : List (List Nat), s = ws.flatten ∧ lo ≤ ws.length ∧ withinBound ws.length hi = true ∧
      ∀ w ∈ ws, r.Lang w

/-! ## Shapes named by the specification -/

/-- An ASCII letter `a-z` or `A-Z`. -/
def isLetter (c : Nat) : Bool := (97 ≤ c && c ≤ 122) || (65 ≤ c && c ≤ 90)

/-- An ASCII digit. -/
def isDigit (c : Nat) : Bool := 48 ≤ c && c ≤ 57

/-- An optional single leading `+`, a digit 1-9, then at most 15 further
digits and nothing else. -/
def PhoneShape (t : JSString) : Prop :=
  ∃ (sign : JSString) (d : Nat) (ds : JSString),
    t = sign ++ d :: ds ∧ (sign = [] ∨ sign = js "+") ∧ (49 ≤ d ∧ d ≤ 57) ∧
      ds.length ≤ 15 ∧ ∀ c ∈ ds, isDigit c = true

/-- The text `l@d.t` with `l`, `d`, `t` non-empty and free of whitespace and
of `@`. -/
def EmailShape (t : JSString) : Prop :=
  ∃ (l d u : JSString),
    t = l ++ js "@" ++ d ++ js "." ++ u ∧ l ≠ [] ∧ d ≠ [] ∧ u ≠ [] ∧
      ∀ c ∈ l ++ d ++ u, isWhiteSpace c = false ∧ c ≠ 64

/-- The message for a missing value, field by field. -/
def requiredText : FieldId → JSString
  | .name => js "Name is required"
  | .email => js "Email is required"
  | .phone => js "Phone Number is required"
  | .message => js "Message is required"

/-- Deleting the space character U+0020, hyphens and parentheses. -/
def deleteSpacesHyphensParens (t : JSString) : JSString :=
  t.filter fun c => !(c == 32 || c == 45 || c == 40 || c == 41)

/-- Deleting every whitespace code unit, hyphens and parentheses. -/
def deleteWhitespaceHyphensParens (t : JSString) : JSString :=
  t.filter fun c => !(isWhiteSpace c || c == 45 || c == 40 || c == 41)

/-! ## Sample pages -/

/-- A control of the contact form as the markup declares it, holding `value`. -/
def formControl (value : JSString) : Control :=
  { value := value, defaultValue := [], errorClass := false, inForm := true }

/-- A page with all its elements, whose four fields hold the given values. -/
def formPage (name email phone message : JSString) : Page :=
  { name := ⟨some (formControl name), some ⟨[], true⟩⟩
    email := ⟨some (formControl email), some ⟨[], true⟩⟩
    phone := ⟨some (formControl phone), some ⟨[], true⟩⟩
    message := ⟨some (formControl message), some ⟨[], true⟩⟩
    contactForm := true
    submitBtn := some ⟨js "Send Message", false⟩
    modalDisplay := some (js "none")
    resultContent := some .initial
    welcomeText := some (js "Hi Guest! Welcome to TechVision Solutions")
    notifications := []
    nextId := 0
    timers := []
    userName := js "Guest"
    storedUserName := none }

/-- The elements of one field as the markup of a contact form declares them:
both exist and belong to `#contact-form`, the control has no initial value. -/
def fieldLaidOut (n : FieldNodes) : Bool :=
  match n.control, n.errorElement with
  | some c, some e => c.inForm && c.defaultValue == [] && e.inForm
  | _, _ => false

/-- The page holds the form, the submit button, the result modal with its
content region, and the four fields laid out in the form. -/
def contactLayout (p : Page) : Bool :=
  p.contactForm && p.submitBtn.isSome && p.modalDisplay.isSome && p.resultContent.isSome &&
    fieldLaidOut p.name && fieldLaidOut p.email && fieldLaidOut p.phone &&
    fieldLaidOut p.message

/-! ## Patterns and their languages -/

theorem withinBound_zero (hi : Option Nat) : withinBound 0 hi = true := by
  cases hi <;> simp [withinBound]

theorem withinBound_mono {m n : Nat} {hi : Option Nat} (h : m ≤ n)
    (hn : withinBound n hi = true) : withinBound m hi = true := by
  cases hi with
  | none => rfl
  | some b => simp [withinBound] at *; omega

theorem withinBound_succ (n : Nat) (hi : Option Nat) :
    withinBound (n + 1) hi = (withinBound 1 hi && withinBound n (hi.map fun h => h - 1)) := by
  cases hi with
  | none => rfl
  | some b =>
    simp only [withinBound, Option.map]
    rw [Bool.eq_iff_iff]
    simp
    omega

theorem flatten_eq_nil_of_mem {ws : List (List Nat)} (h : ws.flatten = []) {w : List Nat}
    (hw : w ∈ ws) : w = [] := by
  induction ws with
  | nil => cases hw
  | cons a t ih =>
    simp only [List.flatten_cons, List.append_eq_nil] at h
    rcases List.mem_cons.1 hw with rfl | hw
    · exact h.1
    · exact ih h.2 hw

theorem Regex.nullable_iff (r : Regex) : r.nullable = true ↔ r.Lang [] := by
  induction r with
  | fail => simp [Regex.nullable, Regex.Lang]
  | cls k => simp [Regex.nullable, Regex.Lang]
  | seq a b iha ihb =>
    simp only [Regex.nullable, Regex.Lang, Bool.and_eq_true, iha, ihb]
    constructor
    · rintro ⟨ha, hb⟩
      exact ⟨[], [], rfl, ha, hb⟩
    · rintro ⟨u, v, huv, ha, hb⟩
      obtain ⟨rfl, rfl⟩ := List.append_eq_nil.1 huv.symm
      exact ⟨ha, hb⟩
  | alt a b iha ihb => simp [Regex.nullable, Regex.Lang, iha, ihb]
  | quant r lo hi ih =>
    simp only [Regex.nullable, Regex.Lang, Bool.or_eq_true, Bool.and_eq_true, beq_iff_eq, ih]
    constructor
    · rintro (rfl | ⟨hr, hb⟩)
      · exact ⟨[], rfl, Nat.le_refl 0, withinBound_zero hi, by simp⟩
      · refine ⟨List.replicate lo [], ?_, by simp, by simpa using hb, ?_⟩
        · induction lo with
          | zero => rfl
          | succ n ihn => simp [List.replicate_succ]
        · intro w hw
          rw [(List.mem_replicate.1 hw).2]
          exact hr
    · rintro ⟨ws, hs, hlo, hhi, hall⟩
      rcases Nat.eq_zero_or_pos lo with h0 | hpos
      · exact Or.inl h0
      · right
        obtain ⟨w, hw⟩ : ∃ w, w ∈ ws := by
          cases ws with
          | nil => simp at hlo; omega
          | cons a t => exact ⟨a, List.mem_cons_self a t⟩
        have := flatten_eq_nil_of_mem hs.symm hw
        exact ⟨this ▸ hall w hw, withinBound_mono hlo hhi⟩

/-- Splitting off the first code unit of a concatenation of words. -/
theorem flatten_cons_split {P : List Nat → Prop} {c : Nat} :
    ∀ {ws : List (List Nat)} {s : List Nat}, ws.flatten = c :: s → (∀ w ∈ ws, P w) →
      ∃ (u : List Nat) (ws' : List (List Nat)), P (c :: u) ∧ s = u ++ ws'.flatten ∧ ws'.length + 1 = ws.length ∧ ∀ w ∈ ws', P w := by
  intro ws
  induction ws with
  | nil => intro s h; simp at h
  | cons a t ih =>
    intro s h hall
    cases a with
    | nil =>
      obtain ⟨u, ws', hu, hs, hlen, hP⟩ := ih (by simpa using h) (fun w hw => hall w (List.mem_cons_of_mem _ hw))
      refine ⟨u, [] :: ws', hu, by simpa using hs, by simp [hlen], ?_⟩
      intro w hw
      rcases List.mem_cons.1 hw with rfl | hw
      · exact hall [] (List.mem_cons_self _ _)
      · exact hP w hw
    | cons d u =>
      simp only [List.flatten_cons, List.cons_append, List.cons.injEq] at h
      obtain ⟨rfl, rfl⟩ := h
      exact ⟨u, t, hall _ (List.mem_cons_self _ _), rfl, rfl,
        fun w hw => hall w (List.mem_cons_of_mem _ hw)⟩

theorem Regex.deriv_iff (c : Nat) (r : Regex) : ∀ s, (r.deriv c).Lang s ↔ r.Lang (c :: s) := by
  induction r with
  | fail => intro s; simp [Regex.deriv, Regex.Lang]
  | cls k =>
    intro s
    simp only [Regex.deriv, Regex.Lang]
    by_cases hk : k.has c = true
    · simp only [hk, if_true, Regex.Lang]
      constructor
      · rintro ⟨ws, hs, -, -, hall⟩
        cases ws with
        | nil => exact ⟨c, by simp [hs], hk⟩
        | cons a t => exact (hall a (List.mem_cons_self _ _)).elim
      · rintro ⟨d, hd, -⟩
        simp only [List.cons.injEq] at hd
        exact ⟨[], by simp [hd.2], Nat.le_refl 0, rfl, by simp⟩
    · simp only [hk, Regex.Lang]
      constructor
      · intro h; exact h.elim
      · rintro ⟨d, hd, hdk⟩
        simp only [List.cons.injEq] at hd
        exact hk (hd.1 ▸ hdk)
  | seq a b iha ihb =>
    intro s
    have key : (∃ u v, s = u ++ v ∧ a.Lang (c :: u) ∧ b.Lang v) ∨ (a.Lang [] ∧ b.Lang (c :: s)) ↔
        (Regex.seq a b).Lang (c :: s) := by
      simp only [Regex.Lang]
      constructor
      · rintro (⟨u, v, rfl, hu, hv⟩ | ⟨ha, hb⟩)
        · exact ⟨c :: u, v, rfl, hu, hv⟩
        · exact ⟨[], c :: s, rfl, ha, hb⟩
      · rintro ⟨u, v, huv, hu, hv⟩
        cases u with
        | nil => exact Or.inr ⟨hu, by simpa [huv] using hv⟩
        | cons d u =>
          simp only [List.cons_append, List.cons.injEq] at huv
          obtain ⟨rfl, rfl⟩ := huv
          exact Or.inl ⟨u, v, rfl, hu, hv⟩
    rw [← key]
    simp only [Regex.deriv]
    by_cases hn : a.nullable = true
    · simp only [hn, if_true, Regex.Lang, iha, ihb, (Regex.nullable_iff a).symm, true_and]
    · simp only [hn, Regex.Lang, iha, (Regex.nullable_iff a).symm, false_and, or_false]
      simp
  | alt a b iha ihb => intro s; simp [Regex.deriv, Regex.Lang, iha, ihb]
  | quant r lo hi ih =>
    intro s
    simp only [Regex.deriv]
    by_cases hb : withinBound 1 hi = true
    · simp only [hb, if_true, Regex.Lang, ih]
      constructor
      · rintro ⟨u, v, rfl, hu, ws, rfl, hlo, hhi, hall⟩
        refine ⟨(c :: u) :: ws, by simp, by simp; omega, ?_, ?_⟩
        · rw [List.length_cons, withinBound_succ, hb, hhi]; rfl
        · intro w hw
          rcases List.mem_cons.1 hw with rfl | hw
          · exact hu
          · exact hall w hw
      · rintro ⟨ws, hs, hlo, hhi, hall⟩
        obtain ⟨u, ws', hu, hs', hlen, hall'⟩ := flatten_cons_split hs.symm hall
        rw [← hlen, withinBound_succ] at hhi
        simp only [Bool.and_eq_true] at hhi
        exact ⟨u, ws'.flatten, hs', hu, ws', rfl, by omega, hhi.2, hall'⟩
    · simp only [hb, Regex.Lang]
      constructor
      · intro h; exact h.elim
      · rintro ⟨ws, hs, -, hhi, -⟩
        cases ws with
        | nil => simp at hs
        | cons a t =>
          apply hb
          exact withinBound_mono (by simp) hhi

/-- The matcher decides membership in the language of the pattern. -/
theorem Regex.test_iff : ∀ (s : List Nat) (r : Regex), r.test s = true ↔ r.Lang s
  | [], r => by simp [Regex.test, Regex.nullable_iff r]
  | c :: s, r => by
    rw [Regex.test, Regex.test_iff s, Regex.deriv_iff]

/-! ## Trimming -/

theorem dropWhile_eq_nil_of_all {p : Nat → Bool} :
    ∀ {s : List Nat}, (∀ x ∈ s.dropWhile p, p x = true) → s.dropWhile p = []
  | [], _ => rfl
  | a :: t, h => by
    by_cases ha : p a = true
    · simp only [List.dropWhile_cons_of_pos ha] at h ⊢
      exact dropWhile_eq_nil_of_all h
    · rw [List.dropWhile_cons_of_neg ha] at h
      exact absurd (h a (List.mem_cons_self _ _)) ha

theorem trim_eq_nil_iff (s : JSString) : trim s = [] ↔ ∀ c ∈ s, isWhiteSpace c = true := by
  unfold trim
  rw [List.rdropWhile_eq_nil_iff]
  constructor
  · intro h
    exact List.dropWhile_eq_nil_iff.1 (dropWhile_eq_nil_of_all h)
  · intro h x hx
    rw [List.dropWhile_eq_nil_iff.2 h] at hx
    cases hx

/-! ## Languages of the three patterns -/

theorem flatten_singletons (s : List Nat) : (s.map fun c => [c]).flatten = s := by
  induction s with
  | nil => rfl
  | cons a t ih => simp [ih]

/-- A quantified character class accepts the strings of admissible length made
of code units of the class. -/
theorem lang_quant_cls (k : CharClass) (lo : Nat) (hi : Option Nat) (s : List Nat) :
    (Regex.quant (.cls k) lo hi).Lang s ↔
      lo ≤ s.length ∧ withinBound s.length hi = true ∧ ∀ c ∈ s, k.has c = true := by
  simp only [Regex.Lang]
  constructor
  · rintro ⟨ws, rfl, hlo, hhi, hall⟩
    have hws : ws = ws.flatten.map fun c => [c] := by
      clear hlo hhi
      induction ws with
      | nil => rfl
      | cons a t ih =>
        obtain ⟨c, rfl, -⟩ := hall a (List.mem_cons_self _ _)
        have := ih fun w hw => hall w (List.mem_cons_of_mem _ hw)
        simp only [List.flatten_cons, List.singleton_append, List.map_cons, List.cons.injEq,
          true_and]
        exact this
    have hlen : ws.flatten.length = ws.length := by
      have h := congrArg List.length hws
      rw [List.length_map] at h
      exact h.symm
    refine ⟨hlen ▸ hlo, hlen ▸ hhi, ?_⟩
    intro c hc
    obtain ⟨w, hw, hcw⟩ := List.mem_flatten.1 hc
    obtain ⟨d, rfl, hd⟩ := hall w hw
    rw [List.mem_singleton.1 hcw]
    exact hd
  · rintro ⟨hlo, hhi, hall⟩
    refine ⟨s.map fun c => [c], (flatten_singletons s).symm, by simpa using hlo,
      by simpa using hhi, ?_⟩
    intro w hw
    obtain ⟨c, hc, rfl⟩ := List.mem_map.1 hw
    exact ⟨c, rfl, hall c hc⟩

theorem lang_cls (k : CharClass) (s : List Nat) :
    (Regex.cls k).Lang s ↔ ∃ c, s = [c] ∧ k.has c = true := by
  simp only [Regex.Lang]

theorem nameRegex_test (t : JSString) :
    nameRegex.test t = true ↔ t ≠ [] ∧ ∀ c ∈ t, isLetter c = true ∨ isWhiteSpace c = true := by
  rw [Regex.test_iff, nameRegex, lang_quant_cls]
  have hk : ∀ c, (CharClass.mk false [.range 97 122, .range 65 90, .space]).has c = true ↔
      (isLetter c = true ∨ isWhiteSpace c = true) := by
    intro c
    simp [CharClass.has, ClassItem.has, isLetter, or_assoc]
  simp only [hk, withinBound, true_and]
  constructor
  · rintro ⟨h1, h2⟩
    exact ⟨by rintro rfl; simp at h1, h2⟩
  · rintro ⟨h1, h2⟩
    exact ⟨by cases t with
      | nil => exact absurd rfl h1
      | cons a t => simp, h2⟩

theorem lang_seq (a b : Regex) (s : List Nat) :
    (Regex.seq a b).Lang s ↔ ∃ u v, s = u ++ v ∧ a.Lang u ∧ b.Lang v := by
  simp only [Regex.Lang]

theorem has_single (x c : Nat) : (CharClass.mk false [.single x]).has c = true ↔ c = x := by
  simp [CharClass.has, ClassItem.has]

theorem has_notSpaceAt (c : Nat) : notSpaceAt.has c = true ↔ isWhiteSpace c = false ∧ c ≠ 64 := by
  simp [notSpaceAt, CharClass.has, ClassItem.has]

theorem optional_sign (u : List Nat) :
    (u.length ≤ 1 ∧ ∀ c ∈ u, c = 43) ↔ (u = [] ∨ u = js "+") := by
  have hj : js "+" = [43] := by decide
  rw [hj]
  constructor
  · rintro ⟨hl, hall⟩
    match u, hl, hall with
    | [], _, _ => exact Or.inl rfl
    | [a], _, hall => exact Or.inr (by rw [hall a (List.mem_singleton_self a)])
    | _ :: _ :: _, hl, _ => simp at hl
  · rintro (rfl | rfl) <;> simp

theorem phoneRegex_test (t : JSString) : phoneRegex.test t = true ↔ PhoneShape t := by
  rw [Regex.test_iff, phoneRegex, PhoneShape]
  simp only [lang_seq, lang_quant_cls, lang_cls, withinBound, has_single, Nat.zero_le, true_and,
    decide_eq_true_eq]
  have hr : ∀ c, (CharClass.mk false [.range 49 57]).has c = true ↔ (49 ≤ c ∧ c ≤ 57) := by
    intro c; simp [CharClass.has, ClassItem.has]
  have hd : ∀ c, (CharClass.mk false [.digit]).has c = true ↔ isDigit c = true := by
    intro c; simp [CharClass.has, ClassItem.has, isDigit]
  simp only [hr, hd, optional_sign]
  constructor
  · rintro ⟨u, v, rfl, hu, w, ds, rfl, ⟨d, rfl, hd1⟩, hlen, hds⟩
    exact ⟨u, d, ds, rfl, hu, hd1, hlen, hds⟩
  · rintro ⟨u, d, ds, rfl, hu, hd1, hlen, hds⟩
    exact ⟨u, d :: ds, rfl, hu, [d], ds, rfl, ⟨d, rfl, hd1⟩, hlen, hds⟩

theorem nonempty_class_run (k : CharClass) (s : List Nat) :
    (1 ≤ s.length ∧ ∀ c ∈ s, k.has c = true) ↔ (s ≠ [] ∧ ∀ c ∈ s, k.has c = true) := by
  cases s <;> simp

theorem emailRegex_test (t : JSString) : emailRegex.test t = true ↔ EmailShape t := by
  have h1 : js "@" = [64] := by decide
  have h2 : js "." = [46] := by decide
  rw [Regex.test_iff, emailRegex, EmailShape, h1, h2]
  simp only [lang_seq, lang_quant_cls, lang_cls, withinBound, has_single, true_and,
    nonempty_class_run]
  constructor
  · rintro ⟨l, _, rfl, ⟨hl, hlc⟩, _, _, rfl, ⟨_, rfl, rfl⟩, d, _, rfl, ⟨hd, hdc⟩, _, u, rfl,
      ⟨_, rfl, rfl⟩, hu, huc⟩
    refine ⟨l, d, u, by simp, hl, hd, hu, ?_⟩
    intro c hc
    rw [← has_notSpaceAt]
    simp only [List.mem_append] at hc
    rcases hc with (hc | hc) | hc
    · exact hlc c hc
    · exact hdc c hc
    · exact huc c hc
  · rintro ⟨l, d, u, rfl, hl, hd, hu, hall⟩
    have hc : ∀ c ∈ l ++ d ++ u, notSpaceAt.has c = true := fun c hc =>
      (has_notSpaceAt c).2 (hall c hc)
    refine ⟨l, [64] ++ d ++ [46] ++ u, by simp, ⟨hl, fun c h => hc c (by simp [h])⟩, [64],
      d ++ [46] ++ u, by simp, ⟨64, rfl, rfl⟩, d, [46] ++ u, by simp,
      ⟨hd, fun c h => hc c (by simp [h])⟩, [46], u, rfl, ⟨46, rfl, rfl⟩, hu,
      fun c h => hc c (by simp [h])⟩

/-! ## Single fields -/

theorem validateField_eq {fieldName : FieldId} {p : Page} {field : Control}
    (hfield : (p.nodes fieldName).control = some field) :
    validateField fieldName p =
      some ((fieldVerdict fieldName field.value).1,
        displayError fieldName (fieldVerdict fieldName field.value).1
          (fieldVerdict fieldName field.value).2 p) := by
  simp only [validateField, hfield]

theorem validateField_of_verdict {fieldName : FieldId} {p : Page} {field : Control}
    (hfield : (p.nodes fieldName).control = some field) {ok : Bool} {msg : JSString}
    (h : fieldVerdict fieldName field.value = (ok, msg)) :
    validateField fieldName p = some (ok, displayError fieldName ok msg p) := by
  rw [validateField_eq hfield, h]

theorem validateField_flag {fieldName : FieldId} {p : Page} {field : Control}
    (hfield : (p.nodes fieldName).control = some field) :
    (validateField fieldName p).map Prod.fst = some (fieldVerdict fieldName field.value).1 := by
  rw [validateField_eq hfield]; rfl

/-- C3: for each of the four fields, when the value of the control is empty or
made of whitespace only, `validateField` returns invalid and displays exactly
"Name is required", "Email is required", "Phone Number is required" or
"Message is required" (`requiredText`); the result is the same whatever the
field-specific checks would say. -/
theorem validateField_required (fieldName : FieldId) (p : Page) (field : Control)
    (hfield : (p.nodes fieldName).control = some field)
    (hblank : ∀ c ∈ field.value, isWhiteSpace c = true) :
    validateField fieldName p =
      some (false, displayError fieldName false (requiredText fieldName) p) := by
  apply validateField_of_verdict hfield
  have ht : trim field.value = [] := (trim_eq_nil_iff _).2 hblank
  have hl : ∀ f, getFieldLabel f ++ js " is required" = requiredText f := by
    intro f; cases f <;> decide
  simp only [fieldVerdict, ht, if_true, hl]

theorem validateField_required_witness :
    validateField .phone (formPage [] [] (js "  ") []) =
      some (false, displayError .phone false (requiredText .phone)
        (formPage [] [] (js "  ") [])) :=
  validateField_required .phone (formPage [] [] (js "  ") []) (formControl (js "  ")) rfl
    (by decide)

theorem removeAll_phoneSeparators (t : JSString) :
    removeAll phoneSeparators t = deleteWhitespaceHyphensParens t := by
  unfold removeAll deleteWhitespaceHyphensParens
  congr 1
  funext c
  simp [phoneSeparators, CharClass.has, ClassItem.has, Bool.and_assoc]

theorem fieldVerdict_phone (raw : JSString) (hne : trim raw ≠ []) :
    fieldVerdict .phone raw =
      if phoneRegex.test (deleteWhitespaceHyphensParens (trim raw)) then (true, [])
      else (false, js "Please enter a valid phone number") := by
  simp only [fieldVerdict, hne, if_false, removeAll_phoneSeparators]
  cases phoneRegex.test (deleteWhitespaceHyphensParens (trim raw)) <;> rfl

/-- C4 (amended): for a phone value whose trimmed text is non-empty,
`validateField('phone')` returns valid if and only if the trimmed text with
every whitespace code unit (all that `\s` matches, not the space character
alone), every hyphen and every parenthesis deleted is an optional single
leading `+`, a digit 1-9 and then at most 15 further digits; it then displays
an empty message, and otherwise it returns invalid with "Please enter a valid
phone number". "+14155551234" and "(415) 555-1234" are valid, "0123456789" is
invalid. -/
theorem validateField_phone_shape (p : Page) (field : Control)
    (hfield : (p.nodes .phone).control = some field) (hne : trim field.value ≠ []) :
    ((validateField .phone p).map Prod.fst = some true ↔
        PhoneShape (deleteWhitespaceHyphensParens (trim field.value))) ∧
      (PhoneShape (deleteWhitespaceHyphensParens (trim field.value)) →
        validateField .phone p = some (true, displayError .phone true [] p)) ∧
      (¬ PhoneShape (deleteWhitespaceHyphensParens (trim field.value)) →
        validateField .phone p =
          some (false, displayError .phone false (js "Please enter a valid phone number") p)) ∧
      fieldVerdict .phone (js "+14155551234") = (true, []) ∧
      fieldVerdict .phone (js "(415) 555-1234") = (true, []) ∧
      fieldVerdict .phone (js "0123456789") = (false, js "Please enter a valid phone number") := by
  have hv := fieldVerdict_phone field.value hne
  refine ⟨?_, ?_, ?_, by decide, by decide, by decide⟩
  · rw [validateField_flag hfield, hv, ← phoneRegex_test]
    cases phoneRegex.test (deleteWhitespaceHyphensParens (trim field.value)) <;> simp
  · intro h
    apply validateField_of_verdict hfield
    rw [hv, (phoneRegex_test _).2 h]; rfl
  · intro h
    apply validateField_of_verdict hfield
    rw [hv]
    have : phoneRegex.test (deleteWhitespaceHyphensParens (trim field.value)) = false := by
      rw [← Bool.not_eq_true, phoneRegex_test]; exact h
    rw [this]; rfl

theorem validateField_phone_shape_witness :
    validateField .phone (formPage [] [] (js "(415) 555-1234") []) =
      some (true, displayError .phone true [] (formPage [] [] (js "(415) 555-1234") [])) :=
  (validateField_phone_shape (formPage [] [] (js "(415) 555-1234") [])
    (formControl (js "(415) 555-1234")) rfl (by decide)).2.1
    ((phoneRegex_test _).1 (by decide))

/-- C4 as stated fails: on the phone value "415", tab, "5551234" the validator
answers valid, although the text left after deleting spaces, hyphens and
parentheses still holds the tab and so is not of the stated shape. -/
theorem validateField_phone_tab :
    trim (js "415\t5551234") ≠ [] ∧
      (validateField .phone (formPage [] [] (js "415\t5551234") [])).map Prod.fst = some true ∧
      ¬ PhoneShape (deleteSpacesHyphensParens (trim (js "415\t5551234"))) := by
  refine ⟨by decide, by decide, ?_⟩
  rw [← phoneRegex_test]
  decide

/-- C5 as stated fails: on the three-digit value "123" the phone validator
answers valid and displays an empty message; it does not reject the value. -/
theorem validateField_phone_123 :
    validateField .phone (formPage [] [] (js "123") []) =
        some (true, displayError .phone true [] (formPage [] [] (js "123") [])) ∧
      fieldVerdict .phone (js "123") ≠ (false, js "Please enter a valid phone number") := by
  constructor
  · exact @validateField_of_verdict .phone (formPage [] [] (js "123") []) (formControl (js "123"))
      rfl true [] (by decide)
  · decide

theorem digits_kept (ds : List Nat) (h : ∀ c ∈ ds, isDigit c = true) :
    deleteWhitespaceHyphensParens ds = ds := by
  unfold deleteWhitespaceHyphensParens
  rw [List.filter_eq_self]
  intro c hc
  have hd := h c hc
  simp only [isDigit, Bool.and_eq_true, decide_eq_true_eq] at hd
  obtain ⟨h1, h2⟩ := hd
  interval_cases c <;> decide

/-- C5 (amended): the phone validator sets no minimum length beyond one digit.
Every value whose trimmed text is a digit 1-9 followed by at most 15 further
digits is valid and gets an empty message; so is the three-digit "123". -/
theorem validateField_phone_short (p : Page) (field : Control)
    (hfield : (p.nodes .phone).control = some field) (d : Nat) (ds : List Nat)
    (hvalue : trim field.value = d :: ds) (hd : 49 ≤ d ∧ d ≤ 57) (hlen : ds.length ≤ 15)
    (hds : ∀ c ∈ ds, isDigit c = true) :
    validateField .phone p = some (true, displayError .phone true [] p) ∧
      fieldVerdict .phone (js "123") = (true, []) := by
  refine ⟨?_, by decide⟩
  apply validateField_of_verdict hfield
  have hall : ∀ c ∈ d :: ds, isDigit c = true := by
    intro c hc
    rcases List.mem_cons.1 hc with rfl | hc
    · simp only [isDigit, Bool.and_eq_true, decide_eq_true_eq]; omega
    · exact hds c hc
  have hshape : PhoneShape (deleteWhitespaceHyphensParens (trim field.value)) := by
    rw [hvalue, digits_kept _ hall]
    exact ⟨[], d, ds, rfl, Or.inl rfl, hd, hlen, hds⟩
  rw [fieldVerdict_phone _ (by rw [hvalue]; exact List.cons_ne_nil _ _),
    (phoneRegex_test _).2 hshape]
  rfl

theorem validateField_phone_short_witness :
    validateField .phone (formPage [] [] (js "123") []) =
        some (true, displayError .phone true [] (formPage [] [] (js "123") [])) ∧
      fieldVerdict .phone (js "123") = (true, []) :=
  validateField_phone_short (formPage [] [] (js "123") []) (formControl (js "123")) rfl 49
    [50, 51] (by decide) (by decide) (by decide) (by decide)

theorem fieldVerdict_email (raw : JSString) (hne : trim raw ≠ []) :
    fieldVerdict .email raw =
      if emailRegex.test (trim raw) then (true, [])
      else (false, js "Please enter a valid email address") := by
  simp only [fieldVerdict, hne, if_false]
  cases emailRegex.test (trim raw) <;> rfl

theorem EmailShape.one_at {t : JSString} (h : EmailShape t) :
    t.count 64 = 1 ∧ ∀ c ∈ t, isWhiteSpace c = false := by
  obtain ⟨l, d, u, rfl, -, -, -, hall⟩ := h
  have h1 : js "@" = [64] := by decide
  have h2 : js "." = [46] := by decide
  rw [h1, h2]
  have hl : l.count 64 = 0 := List.count_eq_zero.2 fun hm => (hall 64 (by simp [hm])).2 rfl
  have hd : d.count 64 = 0 := List.count_eq_zero.2 fun hm => (hall 64 (by simp [hm])).2 rfl
  have hu : u.count 64 = 0 := List.count_eq_zero.2 fun hm => (hall 64 (by simp [hm])).2 rfl
  constructor
  · simp [List.count_append, hl, hd, hu]
  · intro c hc
    simp only [List.mem_append, List.mem_singleton] at hc
    rcases hc with (((hc | rfl) | hc) | rfl) | hc
    · exact (hall c (by simp [hc])).1
    · decide
    · exact (hall c (by simp [hc])).1
    · decide
    · exact (hall c (by simp [hc])).1

/-- C6: for an email value whose trimmed text is non-empty,
`validateField('email')` returns valid if and only if the trimmed text splits
as `l ++ "@" ++ d ++ "." ++ u` with `l`, `d`, `u` non-empty and free of
whitespace and of `@`; such a text has exactly one `@` and no whitespace and
gets an empty message; any other text is invalid with "Please enter a valid
email address". "a@b.com" is valid, "a@b" and "a b@c.com" are invalid. -/
theorem validateField_email_shape (p : Page) (field : Control)
    (hfield : (p.nodes .email).control = some field) (hne : trim field.value ≠ []) :
    ((validateField .email p).map Prod.fst = some true ↔ EmailShape (trim field.value)) ∧
      (EmailShape (trim field.value) →
        validateField .email p = some (true, displayError .email true [] p) ∧
          (trim field.value).count 64 = 1 ∧ ∀ c ∈ trim field.value, isWhiteSpace c = false) ∧
      (¬ EmailShape (trim field.value) →
        validateField .email p =
          some (false, displayError .email false (js "Please enter a valid email address") p)) ∧
      fieldVerdict .email (js "a@b.com") = (true, []) ∧
      fieldVerdict .email (js "a@b") = (false, js "Please enter a valid email address") ∧
      fieldVerdict .email (js "a b@c.com") = (false, js "Please enter a valid email address") := by
  have hv := fieldVerdict_email field.value hne
  refine ⟨?_, ?_, ?_, by decide, by decide, by decide⟩
  · rw [validateField_flag hfield, hv, ← emailRegex_test]
    cases emailRegex.test (trim field.value) <;> simp
  · intro h
    refine ⟨?_, h.one_at⟩
    apply validateField_of_verdict hfield
    rw [hv, (emailRegex_test _).2 h]; rfl
  · intro h
    apply validateField_of_verdict hfield
    rw [hv]
    have : emailRegex.test (trim field.value) = false := by
      rw [← Bool.not_eq_true, emailRegex_test]; exact h
    rw [this]; rfl

theorem validateField_email_shape_witness :
    validateField .email (formPage [] (js "jane@example.com") [] []) =
      some (true, displayError .email true [] (formPage [] (js "jane@example.com") [] [])) :=
  ((validateField_email_shape (formPage [] (js "jane@example.com") [] [])
    (formControl (js "jane@example.com")) rfl (by decide)).2.1
      ((emailRegex_test _).1 (by decide))).1

theorem fieldVerdict_name (raw : JSString) (hne : trim raw ≠ []) :
    fieldVerdict .name raw =
      if (trim raw).length < 2 then (false, js "Name must be at least 2 characters long")
      else if nameRegex.test (trim raw) then (true, [])
      else (false, js "Name can only contain letters and spaces") := by
  simp only [fieldVerdict, hne, if_false]
  cases nameRegex.test (trim raw) <;> rfl

/-- C7: for a name value whose trimmed text is non-empty, `validateField('name')`
returns invalid with "Name must be at least 2 characters long" when the
trimmed length is below 2, whatever the single code unit is; otherwise invalid
with "Name can only contain letters and spaces" when the trimmed text holds a
code unit that is neither an ASCII letter nor whitespace; otherwise valid with
an empty message. "Al" and "Anna Lee" are valid, "A" (and "7") are too short,
"Anna23" holds non-letters. -/
theorem validateField_name_rules (p : Page) (field : Control)
    (hfield : (p.nodes .name).control = some field) (hne : trim field.value ≠ []) :
    ((trim field.value).length < 2 →
        validateField .name p =
          some (false, displayError .name false (js "Name must be at least 2 characters long") p)) ∧
      (2 ≤ (trim field.value).length →
        (∃ c ∈ trim field.value, isLetter c = false ∧ isWhiteSpace c = false) →
        validateField .name p =
          some (false, displayError .name false (js "Name can only contain letters and spaces") p)) ∧
      (2 ≤ (trim field.value).length →
        (∀ c ∈ trim field.value, isLetter c = true ∨ isWhiteSpace c = true) →
        validateField .name p = some (true, displayError .name true [] p)) ∧
      fieldVerdict .name (js "Al") = (true, []) ∧
      fieldVerdict .name (js "Anna Lee") = (true, []) ∧
      fieldVerdict .name (js "A") = (false, js "Name must be at least 2 characters long") ∧
      fieldVerdict .name (js "7") = (false, js "Name must be at least 2 characters long") ∧
      fieldVerdict .name (js "Anna23") = (false, js "Name can only contain letters and spaces") := by
  have hv := fieldVerdict_name field.value hne
  refine ⟨?_, ?_, ?_, by decide, by decide, by decide, by decide, by decide⟩
  · intro hlen
    apply validateField_of_verdict hfield
    rw [hv, if_pos hlen]
  · rintro hlen ⟨c, hc, hl, hw⟩
    apply validateField_of_verdict hfield
    have ht : nameRegex.test (trim field.value) = false := by
      rw [← Bool.not_eq_true, nameRegex_test]
      rintro ⟨-, hall⟩
      rcases hall c hc with h | h
      · rw [hl] at h; cases h
      · rw [hw] at h; cases h
    rw [hv, if_neg (by omega), ht]; rfl
  · intro hlen hall
    apply validateField_of_verdict hfield
    rw [hv, if_neg (by omega), (nameRegex_test _).2 ⟨hne, hall⟩]; rfl

theorem validateField_name_rules_witness :
    validateField .name (formPage (js " Jane Doe ") [] [] []) =
      some (true, displayError .name true [] (formPage (js " Jane Doe ") [] [] [])) :=
  (validateField_name_rules (formPage (js " Jane Doe ") [] [] []) (formControl (js " Jane Doe "))
    rfl (by decide)).2.2.1 (by decide) (by decide)

theorem fieldVerdict_message (raw : JSString) (hne : trim raw ≠ []) :
    fieldVerdict .message raw =
      if (trim raw).length < 10 then (false, js "Message must be at least 10 characters long")
      else if (trim raw).length > 1000 then (false, js "Message must be less than 1000 characters")
      else (true, []) := by
  simp only [fieldVerdict, hne, if_false]

theorem trim_eq_self {s : JSString} (h : ∀ c ∈ s, isWhiteSpace c = false) : trim s = s := by
  unfold trim
  have h1 : s.dropWhile isWhiteSpace = s := by
    cases s with
    | nil => rfl
    | cons a t =>
      exact List.dropWhile_cons_of_neg (by rw [h a (List.mem_cons_self _ _)]; simp)
  rw [h1, List.rdropWhile_eq_self_iff]
  intro hl
  rw [h _ (List.getLast_mem hl)]
  simp

theorem fieldVerdict_message_run (n : Nat) (hn : 0 < n) :
    fieldVerdict .message (List.replicate n 97) =
      if n < 10 then (false, js "Message must be at least 10 characters long")
      else if n > 1000 then (false, js "Message must be less than 1000 characters")
      else (true, []) := by
  have ht : trim (List.replicate n 97) = List.replicate n 97 := by
    apply trim_eq_self
    intro c hc
    rw [(List.mem_replicate.1 hc).2]
    decide
  have hne : trim (List.replicate n 97) ≠ [] := by
    rw [ht]
    intro h
    have := congrArg List.length h
    simp at this
    omega
  rw [fieldVerdict_message _ hne, ht, List.length_replicate]

/-- C8: for a message value whose trimmed text is non-empty, with `n` the
trimmed length, `validateField('message')` returns valid with an empty message
if and only if `10 ≤ n ≤ 1000`; for `n < 10` it is invalid with "Message must
be at least 10 characters long", for `n > 1000` invalid with "Message must be
less than 1000 characters". Runs of the letter `a` of length 9, 10, 1000 and
1001 are invalid, valid, valid and invalid. -/
theorem validateField_message_length (p : Page) (field : Control)
    (hfield : (p.nodes .message).control = some field) (hne : trim field.value ≠ []) :
    ((validateField .message p).map Prod.fst = some true ↔
        10 ≤ (trim field.value).length ∧ (trim field.value).length ≤ 1000) ∧
      (10 ≤ (trim field.value).length → (trim field.value).length ≤ 1000 →
        validateField .message p = some (true, displayError .message true [] p)) ∧
      ((trim field.value).length < 10 →
        validateField .message p =
          some (false,
            displayError .message false (js "Message must be at least 10 characters long") p)) ∧
      (1000 < (trim field.value).length →
        validateField .message p =
          some (false,
            displayError .message false (js "Message must be less than 1000 characters") p)) ∧
      fieldVerdict .message (List.replicate 9 97) =
        (false, js "Message must be at least 10 characters long") ∧
      fieldVerdict .message (List.replicate 10 97) = (true, []) ∧
      fieldVerdict .message (List.replicate 1000 97) = (true, []) ∧
      fieldVerdict .message (List.replicate 1001 97) =
        (false, js "Message must be less than 1000 characters") := by
  have hv := fieldVerdict_message field.value hne
  refine ⟨?_, ?_, ?_, ?_, ?_, ?_, ?_, ?_⟩
  · rw [validateField_flag hfield, hv]
    by_cases h1 : (trim field.value).length < 10
    · rw [if_pos h1]; simp; omega
    · by_cases h2 : (trim field.value).length > 1000
      · rw [if_neg h1, if_pos h2]; simp; omega
      · rw [if_neg h1, if_neg h2]; simp; omega
  · intro h1 h2
    apply validateField_of_verdict hfield
    rw [hv, if_neg (by omega), if_neg (by omega)]
  · intro h1
    apply validateField_of_verdict hfield
    rw [hv, if_pos h1]
  · intro h1
    apply validateField_of_verdict hfield
    rw [hv, if_neg (by omega), if_pos h1]
  · rw [fieldVerdict_message_run 9 (by omega)]; rfl
  · rw [fieldVerdict_message_run 10 (by omega)]; rfl
  · rw [fieldVerdict_message_run 1000 (by omega)]; rfl
  · rw [fieldVerdict_message_run 1001 (by omega)]; rfl

theorem validateField_message_length_witness :
    validateField .message (formPage [] [] [] (js "Hello, I would like a quote.")) =
      some (true,
        displayError .message true [] (formPage [] [] [] (js "Hello, I would like a quote."))) :=
  (validateField_message_length (formPage [] [] [] (js "Hello, I would like a quote."))
    (formControl (js "Hello, I would like a quote.")) rfl (by decide)).2.1
      (by decide) (by decide)

/-! ## The whole form -/

theorem displayError_nodes_of_ne {f g : FieldId} (h : f ≠ g) (ok : Bool) (msg : JSString)
    (p : Page) : (displayError f ok msg p).nodes g = p.nodes g := by
  unfold displayError
  split
  · cases f <;> cases g <;> first | exact absurd rfl h | rfl
  · rfl

theorem displayError_nodes_self {f : FieldId} {p : Page} {c : Control} {e : ErrorSlot}
    (hc : (p.nodes f).control = some c) (he : (p.nodes f).errorElement = some e) (ok : Bool)
    (msg : JSString) :
    (displayError f ok msg p).nodes f =
      ⟨some { c with errorClass := !ok }, some { e with textContent := msg }⟩ := by
  unfold displayError
  rw [hc, he]
  cases f <;> rfl

theorem displayError_frame (f : FieldId) (ok : Bool) (msg : JSString) (p : Page) :
    (displayError f ok msg p).timers = p.timers ∧
      (displayError f ok msg p).notifications = p.notifications ∧
      (displayError f ok msg p).nextId = p.nextId ∧
      (displayError f ok msg p).submitBtn = p.submitBtn ∧
      (displayError f ok msg p).contactForm = p.contactForm ∧
      (displayError f ok msg p).modalDisplay = p.modalDisplay ∧
      (displayError f ok msg p).resultContent = p.resultContent ∧
      (displayError f ok msg p).welcomeText = p.welcomeText ∧
      (displayError f ok msg p).userName = p.userName ∧
      (displayError f ok msg p).storedUserName = p.storedUserName := by
  unfold displayError
  split
  · cases f <;> simp [Page.setNodes]
  · simp

theorem displayError_control (f g : FieldId) (ok : Bool) (msg : JSString) (p : Page) :
    ((displayError f ok msg p).nodes g).control.map (fun c => c.value) =
      (p.nodes g).control.map (fun c => c.value) := by
  by_cases h : f = g
  · subst h
    cases hc : (p.nodes f).control with
    | none => simp [displayError, hc]
    | some c =>
      cases he : (p.nodes f).errorElement with
      | none => simp [displayError, hc, he]
      | some e => rw [displayError_nodes_self hc he]; rfl
  · rw [displayError_nodes_of_ne h]

theorem getFormData_eq (now : JSString) (p : Page) :
    getFormData now p =
      (p.name.control.map fun c => c.value).bind fun a =>
        (p.email.control.map fun c => c.value).bind fun b =>
          (p.phone.control.map fun c => c.value).bind fun c =>
            (p.message.control.map fun c => c.value).bind fun d =>
              some { name := trim a, email := trim b, phone := trim c, message := trim d,
                     timestamp := now } := by
  unfold getFormData
  cases p.name.control <;> cases p.email.control <;> cases p.phone.control <;>
    cases p.message.control <;> rfl

theorem getFormData_eq_of_values {now : JSString} {p q : Page}
    (h : ∀ g, (q.nodes g).control.map (fun c => c.value) =
      (p.nodes g).control.map (fun c => c.value)) :
    getFormData now q = getFormData now p := by
  have hn := h .name
  have he := h .email
  have hp := h .phone
  have hm := h .message
  simp only [Page.nodes] at hn he hp hm
  rw [getFormData_eq, getFormData_eq, hn, he, hp, hm]

/-- The page after the four validations, in the order of the `forEach`. -/
theorem validateAllFields_eq {p : Page} {n e ph m : Control}
    (hn : (p.nodes .name).control = some n) (he : (p.nodes .email).control = some e)
    (hph : (p.nodes .phone).control = some ph) (hm : (p.nodes .message).control = some m) :
    validateAllFields p =
      some ((fieldVerdict .name n.value).1 && (fieldVerdict .email e.value).1 &&
          (fieldVerdict .phone ph.value).1 && (fieldVerdict .message m.value).1,
        displayError .message (fieldVerdict .message m.value).1 (fieldVerdict .message m.value).2
          (displayError .phone (fieldVerdict .phone ph.value).1 (fieldVerdict .phone ph.value).2
            (displayError .email (fieldVerdict .email e.value).1 (fieldVerdict .email e.value).2
              (displayError .name (fieldVerdict .name n.value).1 (fieldVerdict .name n.value).2
                p)))) := by
  have h1 := validateField_eq hn
  have h2 := validateField_eq (p := displayError .name (fieldVerdict .name n.value).1
    (fieldVerdict .name n.value).2 p) (by rw [displayError_nodes_of_ne (g := .email) (by decide)]; exact he)
  have h3 := validateField_eq (p := displayError .email (fieldVerdict .email e.value).1
    (fieldVerdict .email e.value).2 (displayError .name (fieldVerdict .name n.value).1
    (fieldVerdict .name n.value).2 p))
    (by rw [displayError_nodes_of_ne (g := .phone) (by decide),
      displayError_nodes_of_ne (g := .phone) (by decide)]; exact hph)
  have h4 := validateField_eq (p := displayError .phone (fieldVerdict .phone ph.value).1
    (fieldVerdict .phone ph.value).2 (displayError .email (fieldVerdict .email e.value).1
    (fieldVerdict .email e.value).2 (displayError .name (fieldVerdict .name n.value).1
    (fieldVerdict .name n.value).2 p)))
    (by rw [displayError_nodes_of_ne (g := .message) (by decide),
      displayError_nodes_of_ne (g := .message) (by decide),
      displayError_nodes_of_ne (g := .message) (by decide)]; exact hm)
  simp only [validateAllFields, List.foldlM, h1, h2, h3, h4, Option.bind_eq_bind,
    Option.some_bind, Option.pure_def]
  cases (fieldVerdict .name n.value).1 <;> cases (fieldVerdict .email e.value).1 <;>
    cases (fieldVerdict .phone ph.value).1 <;> cases (fieldVerdict .message m.value).1 <;> rfl

theorem displayError_nodes_eq (f : FieldId) (ok : Bool) (msg : JSString) (p : Page) :
    (displayError f ok msg p).nodes f =
      match (p.nodes f).control, (p.nodes f).errorElement with
      | some c, some e => ⟨some { c with errorClass := !ok }, some { e with textContent := msg }⟩
      | _, _ => p.nodes f := by
  cases hc : (p.nodes f).control with
  | none => simp [displayError, hc]
  | some c =>
    cases he : (p.nodes f).errorElement with
    | none => simp [displayError, hc, he]
    | some e => rw [displayError_nodes_self hc he]

theorem displayError_nodes_congr {f : FieldId} {p q : Page} (h : p.nodes f = q.nodes f)
    (ok : Bool) (msg : JSString) :
    (displayError f ok msg p).nodes f = (displayError f ok msg q).nodes f := by
  rw [displayError_nodes_eq, displayError_nodes_eq, h]

theorem fieldVerdict_invalid_message (f : FieldId) (v : JSString)
    (h : (fieldVerdict f v).1 = false) : (fieldVerdict f v).2 ≠ [] := by
  revert h
  unfold fieldVerdict
  cases f <;> simp only [] <;> split_ifs <;>
    first
      | (intro _; decide)
      | (intro h; cases h)

/-- C2: on a page holding the four controls, `validateAllFields` calls
`validateField` for name, email, phone and message in this order, each call
running on the page left by the previous one and none being skipped; it returns
the conjunction of the four answers, which are the answers `validateField`
gives on the current contents, so it returns true if and only if every field
validates. Afterwards the elements of each field are exactly as that field's
own `validateField` call leaves them, and on an all-invalid form every error
element holds a non-empty message. -/
theorem validateAllFields_conjunction (p : Page) (n e ph m : Control)
    (hn : (p.nodes .name).control = some n) (he : (p.nodes .email).control = some e)
    (hph : (p.nodes .phone).control = some ph) (hm : (p.nodes .message).control = some m) :
    ∃ (a b c d : Bool) (p1 p2 p3 p4 : Page),
      validateField .name p = some (a, p1) ∧ validateField .email p1 = some (b, p2) ∧
      validateField .phone p2 = some (c, p3) ∧ validateField .message p3 = some (d, p4) ∧
      validateAllFields p = some (a && b && c && d, p4) ∧
      (validateField .name p).map Prod.fst = some a ∧
      (validateField .email p).map Prod.fst = some b ∧
      (validateField .phone p).map Prod.fst = some c ∧
      (validateField .message p).map Prod.fst = some d ∧
      ((validateAllFields p).map Prod.fst = some true ↔
        ∀ f, (validateField f p).map Prod.fst = some true) ∧
      (∀ f ok q, validateField f p = some (ok, q) → p4.nodes f = q.nodes f) ∧
      (a = false → b = false → c = false → d = false →
        ∀ f s, (p.nodes f).errorElement = some s →
          ∃ t, (p4.nodes f).errorElement = some t ∧ t.textContent ≠ []) := by
  have e1 : (displayError .name (fieldVerdict .name n.value).1 (fieldVerdict .name n.value).2
      p).nodes .email = p.nodes .email := displayError_nodes_of_ne (by decide) _ _ _
  have e2 : ∀ q : Page, (displayError .email (fieldVerdict .email e.value).1
      (fieldVerdict .email e.value).2 q).nodes .phone = q.nodes .phone :=
    fun q => displayError_nodes_of_ne (by decide) _ _ _
  have e3 : ∀ q : Page, (displayError .name (fieldVerdict .name n.value).1
      (fieldVerdict .name n.value).2 q).nodes .phone = q.nodes .phone :=
    fun q => displayError_nodes_of_ne (by decide) _ _ _
  have e4 : ∀ q : Page, (displayError .phone (fieldVerdict .phone ph.value).1
      (fieldVerdict .phone ph.value).2 q).nodes .message = q.nodes .message :=
    fun q => displayError_nodes_of_ne (by decide) _ _ _
  have e5 : ∀ q : Page, (displayError .email (fieldVerdict .email e.value).1
      (fieldVerdict .email e.value).2 q).nodes .message = q.nodes .message :=
    fun q => displayError_nodes_of_ne (by decide) _ _ _
  have e6 : ∀ q : Page, (displayError .name (fieldVerdict .name n.value).1
      (fieldVerdict .name n.value).2 q).nodes .message = q.nodes .message :=
    fun q => displayError_nodes_of_ne (by decide) _ _ _
  have hslots : ∀ f ok q, validateField f p = some (ok, q) →
      (displayError .message (fieldVerdict .message m.value).1 (fieldVerdict .message m.value).2
        (displayError .phone (fieldVerdict .phone ph.value).1 (fieldVerdict .phone ph.value).2
          (displayError .email (fieldVerdict .email e.value).1 (fieldVerdict .email e.value).2
            (displayError .name (fieldVerdict .name n.value).1 (fieldVerdict .name n.value).2
              p)))).nodes f = q.nodes f := by
    intro f ok q hq
    cases f with
    | name =>
      rw [validateField_eq hn] at hq
      simp only [Option.some.injEq, Prod.mk.injEq] at hq
      rw [← hq.2, displayError_nodes_of_ne (by decide), displayError_nodes_of_ne (by decide),
        displayError_nodes_of_ne (by decide)]
    | email =>
      rw [validateField_eq he] at hq
      simp only [Option.some.injEq, Prod.mk.injEq] at hq
      rw [← hq.2, displayError_nodes_of_ne (by decide), displayError_nodes_of_ne (by decide)]
      exact displayError_nodes_congr e1 _ _
    | phone =>
      rw [validateField_eq hph] at hq
      simp only [Option.some.injEq, Prod.mk.injEq] at hq
      rw [← hq.2, displayError_nodes_of_ne (by decide)]
      exact displayError_nodes_congr (by rw [e2, e3]) _ _
    | message =>
      rw [validateField_eq hm] at hq
      simp only [Option.some.injEq, Prod.mk.injEq] at hq
      rw [← hq.2]
      exact displayError_nodes_congr (by rw [e4, e5, e6]) _ _
  refine ⟨_, _, _, _, _, _, _, _, validateField_eq hn,
    validateField_eq (by rw [e1]; exact he), validateField_eq (by rw [e2, e3]; exact hph),
    validateField_eq (by rw [e4, e5, e6]; exact hm), validateAllFields_eq hn he hph hm,
    validateField_flag hn, validateField_flag he, validateField_flag hph, validateField_flag hm,
    ?_, hslots, ?_⟩
  · rw [validateAllFields_eq hn he hph hm]
    constructor
    · intro h
      simp only [Option.map_some', Option.some.injEq, Bool.and_eq_true] at h
      intro f
      cases f
      · rw [validateField_flag hn, h.1.1.1]
      · rw [validateField_flag he, h.1.1.2]
      · rw [validateField_flag hph, h.1.2]
      · rw [validateField_flag hm, h.2]
    · intro h
      have h1 := h .name
      have h2 := h .email
      have h3 := h .phone
      have h4 := h .message
      rw [validateField_flag hn] at h1
      rw [validateField_flag he] at h2
      rw [validateField_flag hph] at h3
      rw [validateField_flag hm] at h4
      simp only [Option.some.injEq] at h1 h2 h3 h4
      simp [h1, h2, h3, h4]
  · intro ha hb hc hd f s hs
    have key : ∀ (x : Control), (p.nodes f).control = some x →
        (fieldVerdict f x.value).1 = false →
        ∃ t, ((displayError .message (fieldVerdict .message m.value).1
          (fieldVerdict .message m.value).2
          (displayError .phone (fieldVerdict .phone ph.value).1 (fieldVerdict .phone ph.value).2
            (displayError .email (fieldVerdict .email e.value).1 (fieldVerdict .email e.value).2
              (displayError .name (fieldVerdict .name n.value).1 (fieldVerdict .name n.value).2
                p)))).nodes f).errorElement = some t ∧ t.textContent ≠ [] := by
      intro x hx hv
      rw [hslots f _ _ (validateField_eq hx), displayError_nodes_self hx hs]
      exact ⟨_, rfl, fieldVerdict_invalid_message f x.value hv⟩
    cases f
    · exact key n hn ha
    · exact key e he hb
    · exact key ph hph hc
    · exact key m hm hd

theorem validateAllFields_conjunction_witness :
    ∃ (a b c d : Bool) (p1 p2 p3 p4 : Page),
      validateField .name (formPage [] [] [] []) = some (a, p1) ∧
      validateField .email p1 = some (b, p2) ∧
      validateField .phone p2 = some (c, p3) ∧ validateField .message p3 = some (d, p4) ∧
      validateAllFields (formPage [] [] [] []) = some (a && b && c && d, p4) ∧
      (validateField .name (formPage [] [] [] [])).map Prod.fst = some a ∧
      (validateField .email (formPage [] [] [] [])).map Prod.fst = some b ∧
      (validateField .phone (formPage [] [] [] [])).map Prod.fst = some c ∧
      (validateField .message (formPage [] [] [] [])).map Prod.fst = some d ∧
      ((validateAllFields (formPage [] [] [] [])).map Prod.fst = some true ↔
        ∀ f, (validateField f (formPage [] [] [] [])).map Prod.fst = some true) ∧
      (∀ f ok q, validateField f (formPage [] [] [] []) = some (ok, q) →
        p4.nodes f = q.nodes f) ∧
      (a = false → b = false → c = false → d = false →
        ∀ f s, ((formPage [] [] [] []).nodes f).errorElement = some s →
          ∃ t, (p4.nodes f).errorElement = some t ∧ t.textContent ≠ []) :=
  validateAllFields_conjunction (formPage [] [] [] []) (formControl []) (formControl [])
    (formControl []) (formControl []) rfl rfl rfl rfl

/-! ## Submission -/

/-- Validation changes nothing but the error display of the four fields. -/
theorem validateAllFields_frame {p : Page} {n e ph m : Control}
    (hn : (p.nodes .name).control = some n) (he : (p.nodes .email).control = some e)
    (hph : (p.nodes .phone).control = some ph) (hm : (p.nodes .message).control = some m) :
    ∃ q, validateAllFields p =
        some ((fieldVerdict .name n.value).1 && (fieldVerdict .email e.value).1 &&
          (fieldVerdict .phone ph.value).1 && (fieldVerdict .message m.value).1, q) ∧
      q.timers = p.timers ∧ q.notifications = p.notifications ∧ q.nextId = p.nextId ∧
      q.submitBtn = p.submitBtn ∧ q.modalDisplay = p.modalDisplay ∧
      q.resultContent = p.resultContent ∧
      ∀ now, getFormData now q =
        some { name := trim n.value, email := trim e.value, phone := trim ph.value,
               message := trim m.value, timestamp := now } := by
  refine ⟨_, validateAllFields_eq hn he hph hm, ?_, ?_, ?_, ?_, ?_, ?_, ?_⟩
  · simp only [displayError_frame]
  · simp only [displayError_frame]
  · simp only [displayError_frame]
  · simp only [displayError_frame]
  · simp only [displayError_frame]
  · simp only [displayError_frame]
  · intro now
    rw [getFormData_eq_of_values (p := p)]
    · simp only [Page.nodes] at hn he hph hm
      simp only [getFormData, hn, he, hph, hm]
    · intro g
      simp only [displayError_control]

theorem all_valid_iff {p : Page} {n e ph m : Control}
    (hn : (p.nodes .name).control = some n) (he : (p.nodes .email).control = some e)
    (hph : (p.nodes .phone).control = some ph) (hm : (p.nodes .message).control = some m) :
    (∀ f, (validateField f p).map Prod.fst = some true) ↔
      ((fieldVerdict .name n.value).1 && (fieldVerdict .email e.value).1 &&
        (fieldVerdict .phone ph.value).1 && (fieldVerdict .message m.value).1) = true := by
  constructor
  · intro h
    have h1 := h .name
    have h2 := h .email
    have h3 := h .phone
    have h4 := h .message
    rw [validateField_flag hn] at h1
    rw [validateField_flag he] at h2
    rw [validateField_flag hph] at h3
    rw [validateField_flag hm] at h4
    simp only [Option.some.injEq] at h1 h2 h3 h4
    simp [h1, h2, h3, h4]
  · intro h f
    simp only [Bool.and_eq_true] at h
    cases f
    · rw [validateField_flag hn, h.1.1.1]
    · rw [validateField_flag he, h.1.1.2]
    · rw [validateField_flag hph, h.1.2]
    · rw [validateField_flag hm, h.2]

theorem handleFormSubmission_of_valid {now : JSString} {p q0 : Page} {formData : FormData}
    (h : validateAllFields p = some (true, q0)) (hfd : getFormData now q0 = some formData) :
    handleFormSubmission now p =
      some { showLoadingState q0 with
        timers := (showLoadingState q0).timers ++ [⟨2000, .completeSubmission formData⟩] } := by
  simp only [handleFormSubmission, h, hfd, if_true]

theorem showLoadingState_frame (p : Page) :
    (showLoadingState p).timers = p.timers ∧
      (showLoadingState p).notifications = p.notifications := by
  unfold showLoadingState
  cases p.submitBtn <;> exact ⟨rfl, rfl⟩

/-- C1: on a page holding the four controls, `handleFormSubmission` builds the
record and schedules the simulated send (the 2000 ms callback carrying the
record) only when `validateField` answers true for each of the four fields on
the current contents. When some field is invalid, the handler does nothing
beyond the validation display and one call of `showNotification`: the only
timer added is that notification's own dismissal, so no record is built and no
send is scheduled; the submit button and the result surface are untouched; the
only notification added is the error-level "Please correct the errors in the
form.". -/
theorem handleFormSubmission_gate (now : JSString) (p : Page) (n e ph m : Control)
    (hn : (p.nodes .name).control = some n) (he : (p.nodes .email).control = some e)
    (hph : (p.nodes .phone).control = some ph) (hm : (p.nodes .message).control = some m) :
    ((∀ f, (validateField f p).map Prod.fst = some true) →
        ∃ q, handleFormSubmission now p = some q ∧
          q.timers = p.timers ++
            [⟨2000, .completeSubmission ⟨trim n.value, trim e.value, trim ph.value,
              trim m.value, now⟩⟩]) ∧
      (¬ (∀ f, (validateField f p).map Prod.fst = some true) →
        ∃ q0 q, validateAllFields p = some (false, q0) ∧
          handleFormSubmission now p = some q ∧
          q = showNotification (js "Please correct the errors in the form.") .error q0 ∧
          q.timers = p.timers ++ [⟨4000, .startExit p.nextId⟩] ∧
          q.notifications = p.notifications ++
            [(p.nextId, ⟨js "Please correct the errors in the form.", .error, false⟩)] ∧
          q.submitBtn = p.submitBtn ∧ q.resultContent = p.resultContent ∧
          q.modalDisplay = p.modalDisplay) ∧
      (∀ q added, handleFormSubmission now p = some q → q.timers = p.timers ++ added →
        (∃ t ∈ added, ∃ formData, t.callback = .completeSubmission formData) →
        ∀ f, (validateField f p).map Prod.fst = some true) := by
  obtain ⟨q0, hq0, ht, hno, hid, hbtn, hmd, hrc, hfd⟩ := validateAllFields_frame hn he hph hm
  have hiff := all_valid_iff hn he hph hm
  have hinvalid : ¬ (∀ f, (validateField f p).map Prod.fst = some true) →
      handleFormSubmission now p =
        some (showNotification (js "Please correct the errors in the form.") .error q0) ∧
      validateAllFields p = some (false, q0) := by
    intro hv
    rw [hiff, Bool.not_eq_true] at hv
    rw [hv] at hq0
    simp only [handleFormSubmission, hq0]
    exact ⟨rfl, trivial⟩
  refine ⟨?_, ?_, ?_⟩
  · intro hv
    rw [hiff] at hv
    rw [hv] at hq0
    refine ⟨_, handleFormSubmission_of_valid hq0 (hfd now), ?_⟩
    simp only [(showLoadingState_frame q0).1, ht]
  · intro hv
    obtain ⟨h1, h2⟩ := hinvalid hv
    exact ⟨q0, _, h2, h1, rfl, by simp [showNotification, ht, hid],
      by simp [showNotification, hno, hid], by simp [showNotification, hbtn],
      by simp [showNotification, hrc], by simp [showNotification, hmd]⟩
  · intro q added hq hadd hsend
    by_contra hv
    obtain ⟨h1, -⟩ := hinvalid hv
    rw [h1] at hq
    simp only [Option.some.injEq] at hq
    subst hq
    simp only [showNotification, ht, hid] at hadd
    have := List.append_cancel_left hadd
    subst this
    obtain ⟨t, htm, formData, hcb⟩ := hsend
    rw [List.mem_singleton.1 htm] at hcb
    cases hcb

theorem handleFormSubmission_gate_witness :
    ∃ q0 q, validateAllFields (formPage (js "A") (js "a@b") [] (js "short")) = some (false, q0) ∧
      handleFormSubmission (js "now") (formPage (js "A") (js "a@b") [] (js "short")) = some q ∧
      q = showNotification (js "Please correct the errors in the form.") .error q0 ∧
      q.timers = (formPage (js "A") (js "a@b") [] (js "short")).timers ++
        [⟨4000, .startExit (formPage (js "A") (js "a@b") [] (js "short")).nextId⟩] ∧
      q.notifications = (formPage (js "A") (js "a@b") [] (js "short")).notifications ++
        [((formPage (js "A") (js "a@b") [] (js "short")).nextId,
          ⟨js "Please correct the errors in the form.", .error, false⟩)] ∧
      q.submitBtn = (formPage (js "A") (js "a@b") [] (js "short")).submitBtn ∧
      q.resultContent = (formPage (js "A") (js "a@b") [] (js "short")).resultContent ∧
      q.modalDisplay = (formPage (js "A") (js "a@b") [] (js "short")).modalDisplay :=
  (handleFormSubmission_gate (js "now") (formPage (js "A") (js "a@b") [] (js "short"))
    (formControl (js "A")) (formControl (js "a@b")) (formControl []) (formControl (js "short"))
    rfl rfl rfl rfl).2.1 (fun h => absurd (h .name) (by decide))

theorem fieldLaidOut_reset {n : FieldNodes} (h : fieldLaidOut n = true) :
    ∃ c s, resetNodes n = ⟨some c, some s⟩ ∧ c.value = [] ∧ c.errorClass = false ∧
      s.textContent = [] := by
  obtain ⟨control, errorElement⟩ := n
  cases control with
  | none => simp [fieldLaidOut] at h
  | some c =>
    cases errorElement with
    | none => simp [fieldLaidOut] at h
    | some e =>
      simp only [fieldLaidOut, Bool.and_eq_true, beq_iff_eq] at h
      obtain ⟨⟨hc, hd⟩, he⟩ := h
      refine ⟨{ c with value := c.defaultValue, errorClass := false },
        { e with textContent := [] }, ?_, hd, rfl, rfl⟩
      simp only [resetNodes, Option.map_some', hc, he, if_true]

theorem runCallback_complete_nodes (formData : FormData) (r : Page) (h : r.contactForm = true)
    (f : FieldId) :
    (runCallback (.completeSubmission formData) r).nodes f = resetNodes (r.nodes f) := by
  simp only [runCallback, showNotification, resetForm, displayFormResults, hideLoadingState]
  cases r.submitBtn <;> cases r.modalDisplay <;> cases r.resultContent <;> cases f <;>
    simp [Page.nodes, h]

theorem runCallback_complete_frame (formData : FormData) (r : Page) (b : Button)
    (md : JSString) (rc : ResultMarkup) (hb : r.submitBtn = some b)
    (hmd : r.modalDisplay = some md) (hrc : r.resultContent = some rc) :
    (runCallback (.completeSubmission formData) r).submitBtn =
        some ⟨js "Send Message", false⟩ ∧
      (runCallback (.completeSubmission formData) r).resultContent =
        some (.details formData.name formData.email formData.phone formData.timestamp
          formData.message) ∧
      (runCallback (.completeSubmission formData) r).modalDisplay = some (js "block") ∧
      (runCallback (.completeSubmission formData) r).notifications =
        r.notifications ++ [(r.nextId, ⟨js "Message sent successfully!", .success, false⟩)] := by
  simp only [runCallback, showNotification, resetForm, displayFormResults, hideLoadingState, hb,
    hmd, hrc]
  cases r.contactForm <;> simp

/-- C9: on a page holding the four controls and the submit button, when all
four fields validate, a submit adds exactly one timer, of 2000 ms, whose
callback carries the record made of the trimmed field values at submit time
and the clock text, puts the button into the disabled "Sending..." state and
shows no notification yet. Run later on any page with the contact-form layout,
whatever its fields then hold, that callback re-enables the button, renders
the five properties of the captured record into the result surface and shows
it, leaves every field with an empty value, no error class and an empty error
message, and adds the success-level notification "Message sent
successfully!". -/
theorem submission_success_path (now : JSString) (p : Page) (n e ph m : Control) (b : Button)
    (hn : (p.nodes .name).control = some n) (he : (p.nodes .email).control = some e)
    (hph : (p.nodes .phone).control = some ph) (hm : (p.nodes .message).control = some m)
    (hb : p.submitBtn = some b)
    (hvalid : ∀ f, (validateField f p).map Prod.fst = some true) :
    ∃ q, handleFormSubmission now p = some q ∧
      q.timers = p.timers ++
        [⟨2000, .completeSubmission ⟨trim n.value, trim e.value, trim ph.value, trim m.value,
          now⟩⟩] ∧
      q.submitBtn = some ⟨js "<span class=\"loading\"></span> Sending...", true⟩ ∧
      q.notifications = p.notifications ∧
      ∀ r : Page, contactLayout r = true →
        (runCallback (.completeSubmission ⟨trim n.value, trim e.value, trim ph.value,
            trim m.value, now⟩) r).submitBtn = some ⟨js "Send Message", false⟩ ∧
          (runCallback (.completeSubmission ⟨trim n.value, trim e.value, trim ph.value,
            trim m.value, now⟩) r).resultContent =
            some (.details (trim n.value) (trim e.value) (trim ph.value) now (trim m.value)) ∧
          (runCallback (.completeSubmission ⟨trim n.value, trim e.value, trim ph.value,
            trim m.value, now⟩) r).modalDisplay = some (js "block") ∧
          (∀ f, ∃ c s,
            (runCallback (.completeSubmission ⟨trim n.value, trim e.value, trim ph.value,
              trim m.value, now⟩) r).nodes f = ⟨some c, some s⟩ ∧
            c.value = [] ∧ c.errorClass = false ∧ s.textContent = []) ∧
          (runCallback (.completeSubmission ⟨trim n.value, trim e.value, trim ph.value,
            trim m.value, now⟩) r).notifications =
            r.notifications ++
              [(r.nextId, ⟨js "Message sent successfully!", .success, false⟩)] := by
  obtain ⟨q0, hq0, ht, hno, -, hbtn, -, -, hfd⟩ := validateAllFields_frame hn he hph hm
  rw [(all_valid_iff hn he hph hm).1 hvalid] at hq0
  refine ⟨_, handleFormSubmission_of_valid hq0 (hfd now), ?_, ?_, ?_, ?_⟩
  · simp only [(showLoadingState_frame q0).1, ht]
  · simp only [showLoadingState, hbtn, hb]
  · simp only [(showLoadingState_frame q0).2, hno]
  · intro r hr
    simp only [contactLayout, Bool.and_eq_true] at hr
    obtain ⟨⟨⟨⟨⟨⟨⟨hform, hbt⟩, hmd⟩, hrc⟩, h1⟩, h2⟩, h3⟩, h4⟩ := hr
    obtain ⟨b', hb'⟩ := Option.isSome_iff_exists.1 hbt
    obtain ⟨md, hmd'⟩ := Option.isSome_iff_exists.1 hmd
    obtain ⟨rc, hrc'⟩ := Option.isSome_iff_exists.1 hrc
    obtain ⟨k1, k2, k3, k4⟩ := runCallback_complete_frame
      ⟨trim n.value, trim e.value, trim ph.value, trim m.value, now⟩ r b' md rc hb' hmd' hrc'
    refine ⟨k1, k2, k3, ?_, k4⟩
    intro f
    rw [runCallback_complete_nodes _ r hform f]
    cases f
    · exact fieldLaidOut_reset h1
    · exact fieldLaidOut_reset h2
    · exact fieldLaidOut_reset h3
    · exact fieldLaidOut_reset h4

theorem submission_success_path_witness :
    ∃ q, handleFormSubmission (js "11/6/2026, 10:00:00 AM")
        (formPage (js "Jane Doe") (js "jane@example.com") (js "415-555-1234")
          (js "Hello, I would like a quote.")) = some q ∧
      q.timers =
        [⟨2000, .completeSubmission ⟨js "Jane Doe", js "jane@example.com", js "415-555-1234",
          js "Hello, I would like a quote.", js "11/6/2026, 10:00:00 AM"⟩⟩] ∧
      q.submitBtn = some ⟨js "<span class=\"loading\"></span> Sending...", true⟩ :=
  match submission_success_path (js "11/6/2026, 10:00:00 AM")
      (formPage (js "Jane Doe") (js "jane@example.com") (js "415-555-1234")
        (js "Hello, I would like a quote."))
      (formControl (js "Jane Doe")) (formControl (js "jane@example.com"))
      (formControl (js "415-555-1234")) (formControl (js "Hello, I would like a quote."))
      ⟨js "Send Message", false⟩ rfl rfl rfl rfl rfl
      (fun f => by cases f <;> decide) with
  | ⟨q, h1, h2, h3, _⟩ => ⟨q, h1, h2, h3⟩

/-! ## Display name -/

theorem promptName_blank (p : Page) (s : JSString) (h : ∀ c ∈ s, isWhiteSpace c = true) :
    promptName (some s) p = p := by
  simp only [promptName, (trim_eq_nil_iff s).2 h, ne_eq, not_true_eq_false, and_false, if_false]

theorem promptName_accept (p : Page) (s : JSString) (h : ¬ ∀ c ∈ s, isWhiteSpace c = true) :
    promptName (some s) p =
      showNotification (js "Welcome " ++ trim s ++ js "! Thanks for visiting us.") .success
        (updateWelcomeMessage { p with userName := trim s, storedUserName := some (trim s) }) := by
  have ht : trim s ≠ [] := fun h0 => h ((trim_eq_nil_iff s).1 h0)
  have hs : s ≠ [] := by
    rintro rfl
    exact h (by simp)
  simp only [promptName, ne_eq, hs, ht, not_false_eq_true, and_self, if_true]
  cases hw : p.welcomeText <;> simp [updateWelcomeMessage, hw]

/-- C10 as stated fails at load: when the stored value is the empty string,
the display name is "Guest" and not the stored value. -/
theorem initialUserName_empty_stored :
    initialUserName (some (js "")) = js "Guest" ∧ initialUserName (some (js "")) ≠ js "" := by
  decide

/-- C10 (amended): at load the display name is the stored value when one is
stored and it is not empty, and "Guest" when nothing or the empty string is
stored. A prompt answer that is cancelled, empty or whitespace-only leaves the
whole page, so the display name, the persisted value, the greeting and the
notifications, unchanged. Any other answer `s` sets the display name and the
persisted value to `trim s`, re-renders the greeting (when its element exists)
as "Hi <trim s>! Welcome to TechVision Solutions", and a later load reads
`trim s`. The answer "Sam" persists "Sam" and gives the greeting "Hi Sam!
Welcome to TechVision Solutions"; the answer of two spaces changes nothing. -/
theorem display_name_store :
    initialUserName none = js "Guest" ∧
      initialUserName (some []) = js "Guest" ∧
      (∀ s, s ≠ [] → initialUserName (some s) = s) ∧
      (∀ p, promptName none p = p) ∧
      (∀ p s, (∀ c ∈ s, isWhiteSpace c = true) → promptName (some s) p = p) ∧
      (∀ p s, ¬ (∀ c ∈ s, isWhiteSpace c = true) →
        (promptName (some s) p).userName = trim s ∧
        (promptName (some s) p).storedUserName = some (trim s) ∧
        (∀ w, p.welcomeText = some w →
          (promptName (some s) p).welcomeText =
            some (js "Hi " ++ trim s ++ js "! Welcome to TechVision Solutions")) ∧
        initialUserName (promptName (some s) p).storedUserName = trim s) ∧
      (promptName (some (js "Sam")) (formPage [] [] [] [])).storedUserName = some (js "Sam") ∧
      (promptName (some (js "Sam")) (formPage [] [] [] [])).welcomeText =
        some (js "Hi Sam! Welcome to TechVision Solutions") ∧
      promptName (some (js "  ")) (formPage [] [] [] []) = formPage [] [] [] [] := by
  refine ⟨rfl, rfl, ?_, fun _ => rfl, promptName_blank, ?_, by decide, by decide, by decide⟩
  · intro s hs
    simp only [initialUserName, hs, if_false]
  · intro p s h
    have ht : trim s ≠ [] := fun h0 => h ((trim_eq_nil_iff s).1 h0)
    rw [promptName_accept p s h]
    refine ⟨?_, ?_, ?_, ?_⟩
    · cases hw : p.welcomeText <;> simp [showNotification, updateWelcomeMessage, hw]
    · cases hw : p.welcomeText <;> simp [showNotification, updateWelcomeMessage, hw]
    · intro w hw
      simp [showNotification, updateWelcomeMessage, hw]
    · have : (showNotification (js "Welcome " ++ trim s ++ js "! Thanks for visiting us.") .success
          (updateWelcomeMessage
            { p with userName := trim s, storedUserName := some (trim s) })).storedUserName =
          some (trim s) := by
        cases hw : p.welcomeText <;> simp [showNotification, updateWelcomeMessage, hw]
      rw [this]
      simp only [initialUserName, ht, if_false]

theorem display_name_store_witness :
    (promptName (some (js " Sam ")) (formPage [] [] [] [])).userName = trim (js " Sam ") ∧
      initialUserName (promptName (some (js " Sam ")) (formPage [] [] [] [])).storedUserName =
        trim (js " Sam ") :=
  match display_name_store.2.2.2.2.2.1 (formPage [] [] [] []) (js " Sam ") (by decide) with
  | ⟨h1, _, _, h4⟩ => ⟨h1, h4⟩

end ContactForm
